import Mathlib

/-!
Shallow embedding of the `kainhuck/cron` scheduling layer (Go).

The Go package wraps a cron-style trigger engine: jobs are registered with
`AddJob` under a freshly allocated integer ID, their callback is wrapped with
optional panic recovery and run-mode gating, and the wrapped callback is stored
both with the trigger engine (for scheduled firings) and in the registry entry
(for manual `Call`).  The trigger engine itself is external; here it is modelled
as a list of registrations whose acceptance of a schedule expression is an
arbitrary boolean oracle `valid : String → Bool`.

Randomness (`math/rand.Intn`) is modelled by an arbitrary stream
`g : Nat → Nat`; draw number `k` from `Intn n` yields `g k % n`, which captures
exactly the contract of `rand.Intn` (a value in `[0, n)` for positive `n`).

The dynamic behaviour of one invocation of a user callback is abstracted by
`Behavior`: it either returns normally or faults (panics).  A firing of the
wrapped callback is a pure state transformer returning the new registry state,
whether the user callback body was entered, and whether a panic escaped the
wrapper.
-/

namespace CronModel

/-- Status constants from the Go source: `StatusReady = iota` (0), `StatusRunning` (1). -/
def StatusReady : Nat := 0

/-- Status constant `StatusRunning = 1`. -/
def StatusRunning : Nat := 1

/-- Run modes from the Go source: `ModeJobSerial RunMode = iota`, then `ModeTimeFirst`. -/
inductive RunMode where
  | ModeJobSerial
  | ModeTimeFirst
deriving DecidableEq, Repr

/-- Dynamic behaviour of one invocation of the user callback `f`:
it either returns normally or faults (a Go panic). -/
inductive Behavior where
  | normal
  | fault
deriving DecidableEq, Repr

/-- The resolved `options` struct of the Go source. -/
structure options where
  RunMode : RunMode
  Immediately : Bool
  Random : Bool
  Recover : Bool
deriving DecidableEq, Repr

/-- The `Option` functional-option values of the Go source
(`WithRunMode`, `WithImmediately`, `WithRandom`, `WithRecover`). -/
inductive Opt where
  | withRunMode (mode : RunMode)
  | withImmediately (i : Bool)
  | withRandom (r : Bool)
  | withRecover (r : Bool)
deriving DecidableEq, Repr

/-- The `apply` method of each option value. -/
def Opt.apply (o : Opt) (opts : options) : options :=
  match o with
  | .withRunMode mode => { opts with RunMode := mode }
  | .withImmediately i => { opts with Immediately := i }
  | .withRandom r => { opts with Random := r }
  | .withRecover r => { opts with Recover := r }

/-- `defaultOpt` from the Go source: Serial run mode, not immediate, not random,
recover enabled. -/
def defaultOpt : options :=
  { RunMode := .ModeJobSerial, Immediately := false, Random := false, Recover := true }

/-- `applyOptions`: fold the option list over the default baseline, later options win. -/
def applyOptions (opts : List Opt) : options :=
  opts.foldl (fun acc o => o.apply acc) defaultOpt

/-- The registry `entry` struct: the trigger-engine handle (`id cron.EntryID`),
the `status` field, and the stored wrapped callback `f`.  The closure `ff` built
in `AddJob` is determined by the job's ID together with the run mode and recover
flag captured at registration time, so the closure is represented by those two
captured values. -/
structure entry where
  eid : Nat
  status : Nat
  mode : RunMode
  recov : Bool
deriving DecidableEq, Repr

/-- One live registration inside the external trigger engine:
the handle it returned and the schedule expression it was given. -/
structure EngineReg where
  handle : Nat
  spec : String
deriving DecidableEq, Repr

/-- The `Cron` struct state: the `entry` sync.Map (as an association list),
the external trigger engine's registrations, the engine's next handle,
and the `nextID` counter of the ID allocator. -/
structure CronState where
  entries : List (Int × entry)
  engine : List EngineReg
  nextHandle : Nat
  nextID : Int
deriving DecidableEq, Repr

/-- `NewCron()`: empty registry, fresh engine, allocator counter at zero. -/
def NewCron : CronState :=
  { entries := [], engine := [], nextHandle := 0, nextID := 0 }

/-- `s.entry.Load(id)` on the registry sync.Map. -/
def lookupEntry (st : CronState) (id : Int) : Option entry :=
  (st.entries.find? (fun p => p.1 == id)).map Prod.snd

/-- `s.entry.Store(id, e)` on the registry sync.Map: insert or replace. -/
def storeEntry (l : List (Int × entry)) (id : Int) (e : entry) : List (Int × entry) :=
  if l.any (fun p => p.1 == id) then
    l.map (fun p => if p.1 == id then (id, e) else p)
  else
    l ++ [(id, e)]

/-- `GetStatus`: load the entry; absent entries report `StatusReady`. -/
def GetStatus (st : CronState) (id : Int) : Nat :=
  match lookupEntry st id with
  | none => StatusReady
  | some e => e.status

/-- `SetStatus`: load the entry; if absent do nothing, otherwise overwrite its
status field and store it back. -/
def SetStatus (st : CronState) (id : Int) (status : Nat) : CronState :=
  match lookupEntry st id with
  | none => st
  | some _ =>
    { st with
      entries := st.entries.map (fun p =>
        if p.1 == id then (p.1, { p.2 with status := status }) else p) }

/-- `genID`: increment `nextID` under the lock and return the new value. -/
def genID (st : CronState) : Int × CronState :=
  (st.nextID + 1, { st with nextID := st.nextID + 1 })

/-- The trigger engine's `AddFunc(spec, ff)`: the oracle `valid` decides whether
the schedule expression parses; on success a fresh handle is allocated and the
registration recorded, on failure an error is reported and nothing changes. -/
def engineAddFunc (valid : String → Bool) (st : CronState) (spec : String) :
    Option Nat × CronState :=
  if valid spec then
    (some (st.nextHandle + 1),
      { st with
        engine := st.engine ++ [{ handle := st.nextHandle + 1, spec := spec }],
        nextHandle := st.nextHandle + 1 })
  else
    (none, st)

/-- `RemoveJob`: if the entry is present, remove its handle from the trigger
engine (`s.c.Remove`) and delete the entry from the registry; otherwise do nothing. -/
def RemoveJob (st : CronState) (id : Int) : CronState :=
  match lookupEntry st id with
  | none => st
  | some e =>
    { st with
      engine := st.engine.filter (fun r => r.handle != e.eid),
      entries := st.entries.filter (fun p => p.1 != id) }

/-- Result of running the wrapped callback `ff` once: the state afterwards,
whether the user callback body was entered, and whether a panic escaped `ff`
into the caller (the trigger engine or the `Call` site). -/
structure FireResult where
  st : CronState
  ran : Bool
  panicked : Bool
deriving DecidableEq, Repr

/-- One invocation of the wrapped callback `ff` built in `AddJob` for job `id`
with captured run mode and recover flag, when the user callback behaves as `b`.

For `ModeJobSerial` this is the gating wrapper of the source:
if `GetStatus` reports Running the firing is skipped; otherwise status is set to
Running, the (possibly recover-wrapped) inner callback runs, and only if that
inner call returns normally does the final `SetStatus(id, StatusReady)` execute
— the reset is straight-line code, not deferred, so an escaping panic skips it.
The inner call returns normally exactly when the recover wrapper is present or
the user callback does not fault.

For any other mode (`ModeTimeFirst`) `ff` is the inner callback itself: no
gating, no status mutation. -/
def runWrapped (st : CronState) (id : Int) (mode : RunMode) (recov : Bool)
    (b : Behavior) : FireResult :=
  match mode with
  | .ModeJobSerial =>
    if GetStatus st id == StatusRunning then
      { st := st, ran := false, panicked := false }
    else
      let st1 := SetStatus st id StatusRunning
      if recov || b == Behavior.normal then
        { st := SetStatus st1 id StatusReady, ran := true, panicked := false }
      else
        { st := st1, ran := true, panicked := true }
  | .ModeTimeFirst =>
    { st := st, ran := true, panicked := !recov && b == Behavior.fault }

/-- `Call(id)`: load the entry; if absent do nothing, otherwise invoke the
stored wrapped callback synchronously in the calling context. -/
def Call (st : CronState) (id : Int) (b : Behavior) : FireResult :=
  match lookupEntry st id with
  | none => { st := st, ran := false, panicked := false }
  | some e => runWrapped st id e.mode e.recov b

/-- A scheduled firing by the trigger engine of the closure it was handed at
registration time, which captured the job's ID, run mode and recover flag. -/
def scheduledFire (st : CronState) (id : Int) (mode : RunMode) (recov : Bool)
    (b : Behavior) : FireResult :=
  runWrapped st id mode recov b

/-- Result of `AddJob`: the returned ID, the state afterwards, and whether the
one-shot `go ff()` of the `Immediately` option was dispatched. -/
structure AddResult where
  id : Int
  st : CronState
  immediateDispatched : Bool
deriving DecidableEq, Repr

/-- `AddJob(spec, f, options...)`, following the source line by line:
resolve options, allocate an ID, build the wrapped callback (represented by the
captured run mode and recover flag), remove a pre-existing entry under the same
ID, register with the trigger engine — on error return the sentinel `-1` with
nothing stored — then store the entry with status `StatusReady` and, if the
`Immediately` option is set, dispatch the one-shot asynchronous fire. -/
def AddJob (valid : String → Bool) (st : CronState) (spec : String)
    (opts : List Opt) : AddResult :=
  let opt := applyOptions opts
  let p := genID st
  let id := p.1
  let st1 := p.2
  let st2 := match lookupEntry st1 id with
    | some _ => RemoveJob st1 id
    | none => st1
  match engineAddFunc valid st2 spec with
  | (none, st3) => { id := -1, st := st3, immediateDispatched := false }
  | (some h, st3) =>
    let st4 := { st3 with
      entries := storeEntry st3.entries id
        { eid := h, status := StatusReady, mode := opt.RunMode, recov := opt.Recover } }
    { id := id, st := st4, immediateDispatched := opt.Immediately }

/-- `rand.Intn(n)` for the `k`-th draw from the ambient random stream `g`:
a value in `[0, n)`. -/
def intn (g : Nat → Nat) (k : Nat) (n : Nat) : Nat := g k % n

/-- Schedule expression synthesized by `AddSecondJob`: clamp, then
`fmt.Sprintf("*/%d * * * * *", sec)`.  The source has no random branch here. -/
def addSecondSpec (sec : Int) : String :=
  let sec := if sec < 0 || sec > 59 then 59 else sec
  "*/" ++ toString sec ++ " * * * * *"

/-- Schedule expression synthesized by `AddMinuteJob`: clamp, then
`"0 */%d * * * *"`, or with `Random` set `"%d */%d * * * *"` with a fresh
`rand.Intn(60)` draw in the seconds field. -/
def addMinuteSpec (g : Nat → Nat) (random : Bool) (min : Int) : String :=
  let min := if min < 0 || min > 59 then 59 else min
  if random then
    toString (intn g 0 60) ++ " */" ++ toString min ++ " * * * *"
  else
    "0 */" ++ toString min ++ " * * * *"

/-- Schedule expression synthesized by `AddHourJob`: clamp, then
`"0 0 */%d * * *"`, or with `Random` set `"%d %d */%d * * *"` with
`rand.Intn(60)` draws in the seconds and minutes fields. -/
def addHourSpec (g : Nat → Nat) (random : Bool) (hour : Int) : String :=
  let hour := if hour < 0 || hour > 23 then 23 else hour
  if random then
    toString (intn g 0 60) ++ " " ++ toString (intn g 1 60) ++ " */" ++
      toString hour ++ " * * *"
  else
    "0 0 */" ++ toString hour ++ " * * *"

/-- Schedule expression synthesized by `AddDayJob`: clamp, then
`"0 0 0 */%d * *"`, or with `Random` set `"%d %d %d */%d * *"` with
`rand.Intn(60)`, `rand.Intn(60)`, `rand.Intn(24)` draws. -/
def addDaySpec (g : Nat → Nat) (random : Bool) (day : Int) : String :=
  let day := if day < 1 || day > 31 then 31 else day
  if random then
    toString (intn g 0 60) ++ " " ++ toString (intn g 1 60) ++ " " ++
      toString (intn g 2 24) ++ " */" ++ toString day ++ " * *"
  else
    "0 0 0 */" ++ toString day ++ " * *"

/-- Schedule expression synthesized by `AddMonthJob`: clamp, then
`"0 0 0 0 */%d *"`, or with `Random` set `"%d %d %d %d */%d *"` with
`rand.Intn(60)`, `rand.Intn(60)`, `rand.Intn(24)`, `rand.Intn(29)+1` draws. -/
def addMonthSpec (g : Nat → Nat) (random : Bool) (mon : Int) : String :=
  let mon := if mon < 0 || mon > 12 then 12 else mon
  if random then
    toString (intn g 0 60) ++ " " ++ toString (intn g 1 60) ++ " " ++
      toString (intn g 2 24) ++ " " ++ toString (intn g 3 29 + 1) ++ " */" ++
      toString mon ++ " *"
  else
    "0 0 0 0 */" ++ toString mon ++ " *"

/-- Schedule expression synthesized by `AddWeekJob`: clamp, then
`"0 0 0 0 0 */%d"`, or with `Random` set `"%d %d %d 0 0 */%d"` with
`rand.Intn(60)`, `rand.Intn(60)`, `rand.Intn(24)` draws; the day-of-month and
month fields stay the literal `0` in both variants. -/
def addWeekSpec (g : Nat → Nat) (random : Bool) (week : Int) : String :=
  let week := if week < 1 || week > 7 then 7 else week
  if random then
    toString (intn g 0 60) ++ " " ++ toString (intn g 1 60) ++ " " ++
      toString (intn g 2 24) ++ " 0 0 */" ++ toString week
  else
    "0 0 0 0 0 */" ++ toString week

/-- `AddSecondJob`: synthesize the expression and delegate to `AddJob`. -/
def AddSecondJob (valid : String → Bool) (st : CronState) (sec : Int)
    (opts : List Opt) : AddResult :=
  AddJob valid st (addSecondSpec sec) opts

/-- `AddMinuteJob`: resolve options for the `Random` check, synthesize, delegate. -/
def AddMinuteJob (valid : String → Bool) (g : Nat → Nat) (st : CronState)
    (min : Int) (opts : List Opt) : AddResult :=
  AddJob valid st (addMinuteSpec g (applyOptions opts).Random min) opts

/-- `AddHourJob`: resolve options for the `Random` check, synthesize, delegate. -/
def AddHourJob (valid : String → Bool) (g : Nat → Nat) (st : CronState)
    (hour : Int) (opts : List Opt) : AddResult :=
  AddJob valid st (addHourSpec g (applyOptions opts).Random hour) opts

/-- `AddDayJob`: resolve options for the `Random` check, synthesize, delegate. -/
def AddDayJob (valid : String → Bool) (g : Nat → Nat) (st : CronState)
    (day : Int) (opts : List Opt) : AddResult :=
  AddJob valid st (addDaySpec g (applyOptions opts).Random day) opts

/-- `AddMonthJob`: resolve options for the `Random` check, synthesize, delegate. -/
def AddMonthJob (valid : String → Bool) (g : Nat → Nat) (st : CronState)
    (mon : Int) (opts : List Opt) : AddResult :=
  AddJob valid st (addMonthSpec g (applyOptions opts).Random mon) opts

/-- `AddWeekJob`: resolve options for the `Random` check, synthesize, delegate. -/
def AddWeekJob (valid : String → Bool) (g : Nat → Nat) (st : CronState)
    (week : Int) (opts : List Opt) : AddResult :=
  AddJob valid st (addWeekSpec g (applyOptions opts).Random week) opts

/-- One step of whitespace tokenization of a schedule expression:
a space starts a new (empty) current token, any other character is prepended to
the current token. -/
def splitFieldsAux (c : Char) (acc : List (List Char)) : List (List Char) :=
  if c = ' ' then [] :: acc
  else match acc with
    | [] => [[c]]
    | a :: as => (c :: a) :: as

/-- Tokenize a character list on single spaces. -/
def tokenize (l : List Char) : List (List Char) :=
  l.foldr splitFieldsAux [[]]

/-- The whitespace-separated fields of a schedule expression string. -/
def specFields (s : String) : List String :=
  (tokenize s.data).map (fun l => String.mk l)

/-- Parse a run of decimal digits, rejecting any non-digit character. -/
def parseNatAux : List Char → Nat → Option Nat
  | [], acc => some acc
  | c :: cs, acc =>
    if c.isDigit then parseNatAux cs (acc * 10 + (c.toNat - 48)) else none

/-- Parse a field as a decimal literal; fields such as `*` or `*/n` yield `none`. -/
def parseNat? (s : String) : Option Nat :=
  match s.data with
  | [] => none
  | l => parseNatAux l 0

/-- A field, when it is a numeric literal, lies between `lo` and `hi`;
non-numeric fields (`*`, `*/n`) carry no sub-unit value and pass vacuously. -/
def numericFieldOk (lo hi : Nat) (f : String) : Bool :=
  match parseNat? f with
  | some v => lo ≤ v && v ≤ hi
  | none => true

/-- The range property asserted by the spec for a synthesized schedule
expression: the seconds and minutes fields lie in 0–59, the hours field in
0–23, and the day-of-month field in 1–31, whenever those fields are numeric
literals. -/
def claimSubUnitFieldsOk (s : String) : Bool :=
  let fs := specFields s
  numericFieldOk 0 59 (fs.getD 0 "") &&
  numericFieldOk 0 59 (fs.getD 1 "") &&
  numericFieldOk 0 23 (fs.getD 2 "") &&
  numericFieldOk 1 31 (fs.getD 3 "")

/-- Join a token list with single spaces, inverse of `tokenize` for
space-free tokens. -/
def joinTokens : List (List Char) → List Char
  | [] => []
  | [t] => t
  | t :: ts => t ++ ' ' :: joinTokens ts

/-- An observable operation on a `Cron` instance, used to quantify over
arbitrary interleavings of API calls and trigger-engine firings. -/
inductive OpAction where
  | add (spec : String) (opts : List Opt)
  | remove (id : Int)
  | call (id : Int) (b : Behavior)
  | fire (id : Int) (mode : RunMode) (recov : Bool) (b : Behavior)
  | setStatus (id : Int) (v : Nat)
deriving Repr

/-- Apply one operation to the state (discarding return values). -/
def applyAction (valid : String → Bool) (st : CronState) : OpAction → CronState
  | .add spec opts => (AddJob valid st spec opts).st
  | .remove id => RemoveJob st id
  | .call id b => (Call st id b).st
  | .fire id mode recov b => (scheduledFire st id mode recov b).st
  | .setStatus id v => SetStatus st id v

/-- Run a sequence of operations left to right. -/
def runActions (valid : String → Bool) (st : CronState) (l : List OpAction) :
    CronState :=
  l.foldl (applyAction valid) st

/-- Run a sequence of firings of live jobs and manual `Call`s: each element
names the target job and the behaviour of its user callback on that occasion.
For a live job a scheduled firing executes the same stored wrapped callback as
`Call`, so one constructor covers both. -/
def runCalls (st : CronState) (l : List (Int × Behavior)) : CronState :=
  l.foldl (fun s p => (Call s p.1 p.2).st) st

/-- Registry IDs never exceed the allocator counter.  This holds in every
reachable state (see `idsBounded_runActions`) and rules out the unreachable
situation where a freshly allocated ID collides with a stored entry. -/
def idsBounded (st : CronState) : Prop :=
  ∀ p ∈ st.entries, p.1 ≤ st.nextID

/-- Concrete state with one Serial-mode job (ID 1) currently Running,
used for instantiating theorems. -/
def busySerialState : CronState :=
  { entries := [(1, { eid := 1, status := StatusRunning,
                      mode := RunMode.ModeJobSerial, recov := true })],
    engine := [{ handle := 1, spec := "* * * * * *" }],
    nextHandle := 1, nextID := 1 }

/-- The entry stored under ID 1 in `busySerialState`. -/
def busySerialEntry : entry :=
  { eid := 1, status := StatusRunning, mode := RunMode.ModeJobSerial, recov := true }

/-- Concrete state with one Serial-mode job (ID 1) at Ready with panic
recovery enabled, used for instantiating theorems. -/
def readySerialState : CronState :=
  { entries := [(1, { eid := 1, status := StatusReady,
                      mode := RunMode.ModeJobSerial, recov := true })],
    engine := [{ handle := 1, spec := "* * * * * *" }],
    nextHandle := 1, nextID := 1 }

/-- The entry stored under ID 1 in `readySerialState`. -/
def readySerialEntry : entry :=
  { eid := 1, status := StatusReady, mode := RunMode.ModeJobSerial, recov := true }

/-- Concrete state with one Serial-mode job (ID 1) at Ready with panic
recovery disabled, used for instantiating theorems. -/
def readyNoRecoverState : CronState :=
  { entries := [(1, { eid := 1, status := StatusReady,
                      mode := RunMode.ModeJobSerial, recov := false })],
    engine := [{ handle := 1, spec := "* * * * * *" }],
    nextHandle := 1, nextID := 1 }

/-- The entry stored under ID 1 in `readyNoRecoverState`. -/
def readyNoRecoverEntry : entry :=
  { eid := 1, status := StatusReady, mode := RunMode.ModeJobSerial, recov := false }

/-- Concrete state with one TimeFirst-mode job (ID 1) at Ready,
used for instantiating theorems. -/
def readyTimeFirstState : CronState :=
  { entries := [(1, { eid := 1, status := StatusReady,
                      mode := RunMode.ModeTimeFirst, recov := true })],
    engine := [{ handle := 1, spec := "* * * * * *" }],
    nextHandle := 1, nextID := 1 }

/-- The entry stored under ID 1 in `readyTimeFirstState`. -/
def readyTimeFirstEntry : entry :=
  { eid := 1, status := StatusReady, mode := RunMode.ModeTimeFirst, recov := true }

/-! ### General lemmas about the registry operations -/

theorem find?_map_fst_preserving (f : Int × entry → Int × entry)
    (hf : ∀ p, (f p).1 = p.1) (l : List (Int × entry)) (j : Int) :
    (l.map f).find? (fun p => p.1 == j) = (l.find? (fun p => p.1 == j)).map f := by
  induction l with
  | nil => rfl
  | cons p l ih =>
    simp only [List.map_cons, List.find?, hf p]
    cases hb : (p.1 == j) with
    | true => rfl
    | false => simpa using ih

theorem lookupEntry_SetStatus_self (st : CronState) (id : Int) (v : Nat) :
    lookupEntry (SetStatus st id v) id
      = (lookupEntry st id).map (fun e => { e with status := v }) := by
  unfold SetStatus
  cases hl : lookupEntry st id with
  | none => simp [hl]
  | some e =>
    unfold lookupEntry at hl ⊢
    simp only
    rw [find?_map_fst_preserving _ (fun p => by by_cases h : p.1 = id <;> simp [h])]
    cases hf : st.entries.find? (fun p => p.1 == id) with
    | none => simp [hf] at hl
    | some q =>
      have hq : q.1 = id := by simpa using List.find?_some hf
      have hl2 : q.2 = e := by
        simp [hf] at hl
        exact hl
      simp [hf, hq, hl2]

theorem lookupEntry_SetStatus_ne (st : CronState) (id : Int) (v : Nat) (j : Int)
    (h : j ≠ id) :
    lookupEntry (SetStatus st id v) j = lookupEntry st j := by
  unfold SetStatus
  cases hl : lookupEntry st id with
  | none => rfl
  | some e =>
    unfold lookupEntry
    simp only
    rw [find?_map_fst_preserving _ (fun p => by by_cases hp : p.1 = id <;> simp [hp])]
    cases hf : st.entries.find? (fun p => p.1 == j) with
    | none => simp
    | some q =>
      have hq := List.find?_some hf
      have hqj : q.1 = j := by simpa using hq
      simp [hqj, fun hc : j = id => h hc]

theorem SetStatus_engine (st : CronState) (id : Int) (v : Nat) :
    (SetStatus st id v).engine = st.engine := by
  unfold SetStatus
  cases lookupEntry st id <;> rfl

theorem SetStatus_nextID (st : CronState) (id : Int) (v : Nat) :
    (SetStatus st id v).nextID = st.nextID := by
  unfold SetStatus
  cases lookupEntry st id <;> rfl

theorem GetStatus_of_lookup (st : CronState) (id : Int) (e : entry)
    (h : lookupEntry st id = some e) : GetStatus st id = e.status := by
  unfold GetStatus
  rw [h]

theorem GetStatus_SetStatus_self (st : CronState) (id : Int) (v : Nat) (e : entry)
    (h : lookupEntry st id = some e) :
    GetStatus (SetStatus st id v) id = v := by
  unfold GetStatus
  rw [lookupEntry_SetStatus_self, h]
  rfl

theorem runWrapped_engine (st : CronState) (id : Int) (mode : RunMode)
    (recov : Bool) (b : Behavior) :
    (runWrapped st id mode recov b).st.engine = st.engine := by
  unfold runWrapped
  cases mode with
  | ModeJobSerial =>
    dsimp only
    split
    · rfl
    · split <;> simp [SetStatus_engine]
  | ModeTimeFirst => rfl

theorem runWrapped_nextID (st : CronState) (id : Int) (mode : RunMode)
    (recov : Bool) (b : Behavior) :
    (runWrapped st id mode recov b).st.nextID = st.nextID := by
  unfold runWrapped
  cases mode with
  | ModeJobSerial =>
    dsimp only
    split
    · rfl
    · split <;> simp [SetStatus_nextID]
  | ModeTimeFirst => rfl

theorem Call_engine (st : CronState) (id : Int) (b : Behavior) :
    (Call st id b).st.engine = st.engine := by
  unfold Call
  cases lookupEntry st id with
  | none => rfl
  | some e => exact runWrapped_engine st id e.mode e.recov b

theorem Call_nextID (st : CronState) (id : Int) (b : Behavior) :
    (Call st id b).st.nextID = st.nextID := by
  unfold Call
  cases lookupEntry st id with
  | none => rfl
  | some e => exact runWrapped_nextID st id e.mode e.recov b

theorem RemoveJob_nextID (st : CronState) (id : Int) :
    (RemoveJob st id).nextID = st.nextID := by
  unfold RemoveJob
  cases lookupEntry st id <;> rfl

theorem lookupEntry_RemoveJob_self (st : CronState) (id : Int) :
    lookupEntry (RemoveJob st id) id = none := by
  unfold RemoveJob
  cases hl : lookupEntry st id with
  | none => exact hl
  | some e =>
    unfold lookupEntry
    simp only [Option.map_eq_none']
    rw [List.find?_eq_none]
    intro p hp
    have := List.of_mem_filter hp
    simpa using this

/-! ### C5 -/

/-- C5: every granularity helper clamps an out-of-range argument to the
granularity's legal maximum (second/minute to 59, hour to 23, day-of-month to
31, month to 12, week to 7) before synthesizing the schedule expression, so the
expression it produces is the one for the maximum; in particular
`AddSecondJob 75` synthesizes the step-59 expression. -/
theorem granularity_clamp :
    (∀ n : Int, (n < 0 ∨ 59 < n) → addSecondSpec n = addSecondSpec 59) ∧
    (∀ (g : Nat → Nat) (random : Bool) (n : Int), (n < 0 ∨ 59 < n) →
        addMinuteSpec g random n = addMinuteSpec g random 59) ∧
    (∀ (g : Nat → Nat) (random : Bool) (n : Int), (n < 0 ∨ 23 < n) →
        addHourSpec g random n = addHourSpec g random 23) ∧
    (∀ (g : Nat → Nat) (random : Bool) (n : Int), (n < 1 ∨ 31 < n) →
        addDaySpec g random n = addDaySpec g random 31) ∧
    (∀ (g : Nat → Nat) (random : Bool) (n : Int), (n < 0 ∨ 12 < n) →
        addMonthSpec g random n = addMonthSpec g random 12) ∧
    (∀ (g : Nat → Nat) (random : Bool) (n : Int), (n < 1 ∨ 7 < n) →
        addWeekSpec g random n = addWeekSpec g random 7) ∧
    addSecondSpec 75 = "*/59 * * * * *" := by
  refine ⟨?_, ?_, ?_, ?_, ?_, ?_, rfl⟩ <;>
    first
    | (intro n h
       rcases h with h | h <;> simp [addSecondSpec, h])
    | (intro g random n h
       rcases h with h | h <;>
         simp [addMinuteSpec, addHourSpec, addDaySpec, addMonthSpec, addWeekSpec, h])

/-- Witness for C5 at concrete out-of-range inputs. -/
theorem granularity_clamp_witness :
    addSecondSpec 75 = addSecondSpec 59 ∧
    addMinuteSpec (fun _ => 0) true 60 = addMinuteSpec (fun _ => 0) true 59 ∧
    addHourSpec (fun _ => 0) true 24 = addHourSpec (fun _ => 0) true 23 ∧
    addDaySpec (fun _ => 0) true 0 = addDaySpec (fun _ => 0) true 31 ∧
    addMonthSpec (fun _ => 0) true 13 = addMonthSpec (fun _ => 0) true 12 ∧
    addWeekSpec (fun _ => 0) false 9 = addWeekSpec (fun _ => 0) false 7 ∧
    addSecondSpec 75 = "*/59 * * * * *" :=
  ⟨granularity_clamp.1 75 (Or.inr (by decide)),
   granularity_clamp.2.1 _ true 60 (Or.inr (by decide)),
   granularity_clamp.2.2.1 _ true 24 (Or.inr (by decide)),
   granularity_clamp.2.2.2.1 _ true 0 (Or.inl (by decide)),
   granularity_clamp.2.2.2.2.1 _ true 13 (Or.inr (by decide)),
   granularity_clamp.2.2.2.2.2.1 _ false 9 (Or.inr (by decide)),
   granularity_clamp.2.2.2.2.2.2⟩

/-! ### C8 -/

/-- C8: for an ID not present in the registry, `RemoveJob` and `Call` are
no-ops and `GetStatus` returns the Ready default; and `RemoveJob` immediately
followed by `Call` on the same ID invokes no callback. -/
theorem unknown_id_noop :
    (∀ (st : CronState) (id : Int) (b : Behavior), lookupEntry st id = none →
        RemoveJob st id = st ∧ Call st id b = ⟨st, false, false⟩ ∧
        GetStatus st id = StatusReady) ∧
    (∀ (st : CronState) (id : Int) (b : Behavior),
        Call (RemoveJob st id) id b = ⟨RemoveJob st id, false, false⟩) := by
  constructor
  · intro st id b h
    refine ⟨?_, ?_, ?_⟩
    · unfold RemoveJob
      rw [h]
    · unfold Call
      rw [h]
    · unfold GetStatus
      rw [h]
  · intro st id b
    unfold Call
    rw [lookupEntry_RemoveJob_self]

/-- Witness for C8: removing then calling the unknown ID 5 on a fresh instance. -/
theorem unknown_id_noop_witness :
    (RemoveJob NewCron 5 = NewCron ∧
      Call NewCron 5 Behavior.normal = ⟨NewCron, false, false⟩ ∧
      GetStatus NewCron 5 = StatusReady) ∧
    Call (RemoveJob NewCron 5) 5 Behavior.normal
      = ⟨RemoveJob NewCron 5, false, false⟩ :=
  ⟨unknown_id_noop.1 NewCron 5 Behavior.normal rfl,
   unknown_id_noop.2 NewCron 5 Behavior.normal⟩

/-! ### C7 -/

/-- C7: `Call` on a registered ID invokes the stored wrapped callback
synchronously in the calling context, so it behaves exactly like a scheduled
firing of the closure registered for that job; in particular the Serial-mode
gating applies, and a `Call` on a Serial job whose status is Running performs
no work and no state change. -/
theorem call_invokes_wrapped_with_gating :
    (∀ (st : CronState) (id : Int) (e : entry) (b : Behavior),
        lookupEntry st id = some e →
        Call st id b = scheduledFire st id e.mode e.recov b) ∧
    (∀ (st : CronState) (id : Int) (e : entry) (b : Behavior),
        lookupEntry st id = some e → e.mode = RunMode.ModeJobSerial →
        e.status = StatusRunning →
        Call st id b = ⟨st, false, false⟩) := by
  constructor
  · intro st id e b h
    unfold Call scheduledFire
    rw [h]
  · intro st id e b h hmode hst
    have h1 : Call st id b = runWrapped st id e.mode e.recov b := by
      unfold Call
      rw [h]
    rw [h1, hmode]
    unfold runWrapped
    have h2 : GetStatus st id = StatusRunning := by
      rw [GetStatus_of_lookup st id e h, hst]
    simp [h2]

/-- Witness for C7 on a concrete busy Serial job. -/
theorem call_invokes_wrapped_with_gating_witness :
    Call busySerialState 1 Behavior.normal = ⟨busySerialState, false, false⟩ ∧
    Call busySerialState 1 Behavior.normal
      = scheduledFire busySerialState 1 RunMode.ModeJobSerial true Behavior.normal :=
  ⟨call_invokes_wrapped_with_gating.2 busySerialState 1 busySerialEntry
      Behavior.normal rfl rfl rfl,
   call_invokes_wrapped_with_gating.1 busySerialState 1 busySerialEntry
      Behavior.normal rfl⟩

/-! ### C2 -/

/-- C2: a firing of a Serial-mode job — the wrapped callback `ff` executed both
by the trigger engine and by `Call` — skips entirely when the status is Running
at fire time (no callback run, no state change, no fault), and when the status
is Ready it first sets the status to Running, runs the user callback
synchronously to completion (the callback completes whenever panic recovery is
enabled or it does not fault), and then sets the status back to Ready. -/
theorem serial_fire_protocol :
    (∀ (st : CronState) (id : Int) (recov : Bool) (b : Behavior),
        GetStatus st id = StatusRunning →
        runWrapped st id RunMode.ModeJobSerial recov b = ⟨st, false, false⟩) ∧
    (∀ (st : CronState) (id : Int) (e : entry) (recov : Bool) (b : Behavior),
        lookupEntry st id = some e → e.status = StatusReady →
        (recov = true ∨ b = Behavior.normal) →
        runWrapped st id RunMode.ModeJobSerial recov b
            = ⟨SetStatus (SetStatus st id StatusRunning) id StatusReady,
               true, false⟩ ∧
          GetStatus (SetStatus st id StatusRunning) id = StatusRunning ∧
          GetStatus (runWrapped st id RunMode.ModeJobSerial recov b).st id
            = StatusReady) := by
  constructor
  · intro st id recov b h
    unfold runWrapped
    simp [h]
  · intro st id e recov b h hst hrb
    have hget : GetStatus st id = StatusReady := by
      rw [GetStatus_of_lookup st id e h, hst]
    have hcond : (GetStatus st id == StatusRunning) = false := by
      simp [hget, StatusReady, StatusRunning]
    have hinner : (recov || b == Behavior.normal) = true := by
      rcases hrb with h1 | h1 <;> simp [h1]
    have hrun : runWrapped st id RunMode.ModeJobSerial recov b
        = ⟨SetStatus (SetStatus st id StatusRunning) id StatusReady,
           true, false⟩ := by
      unfold runWrapped
      simp [hcond, hinner]
    refine ⟨hrun, ?_, ?_⟩
    · exact GetStatus_SetStatus_self st id StatusRunning e h
    · rw [hrun]
      have h2 : lookupEntry (SetStatus st id StatusRunning) id
          = some { e with status := StatusRunning } := by
        rw [lookupEntry_SetStatus_self, h]
        rfl
      exact GetStatus_SetStatus_self _ id StatusReady _ h2

/-- Witness for C2: the Running branch on a busy job, and the Ready branch on a
ready job whose callback faults but is intercepted by recovery. -/
theorem serial_fire_protocol_witness :
    runWrapped busySerialState 1 RunMode.ModeJobSerial true Behavior.normal
      = ⟨busySerialState, false, false⟩ ∧
    (runWrapped readySerialState 1 RunMode.ModeJobSerial true Behavior.fault
        = ⟨SetStatus (SetStatus readySerialState 1 StatusRunning) 1 StatusReady,
           true, false⟩ ∧
      GetStatus (SetStatus readySerialState 1 StatusRunning) 1 = StatusRunning ∧
      GetStatus (runWrapped readySerialState 1 RunMode.ModeJobSerial true
          Behavior.fault).st 1 = StatusReady) :=
  ⟨serial_fire_protocol.1 busySerialState 1 true Behavior.normal rfl,
   serial_fire_protocol.2 readySerialState 1 readySerialEntry true Behavior.fault
     rfl rfl (Or.inl rfl)⟩

/-! ### C1 -/

/-- Counterexample to C1 as stated: register a Serial-mode job with recovery
disabled on a fresh instance, then fire it once with a faulting callback; the
status after the firing is Running — not Ready as the claim requires. -/
theorem serial_fault_unrecovered_not_ready :
    GetStatus (Call (AddJob (fun _ => true) NewCron "* * * * * *"
        [Opt.withRecover false]).st 1 Behavior.fault).st 1
      = StatusRunning ∧ StatusRunning ≠ StatusReady := by
  constructor
  · decide
  · decide

/-- C1 amended: for a Serial-mode job with recovery disabled, a firing whose
user callback faults propagates the fault to the trigger engine and leaves the
job's status at Running once the firing is over — the Ready reset is
straight-line code after the callback, so an escaping panic skips it.  The
job's record itself remains present in the registry. -/
theorem serial_fault_unrecovered_leaves_running :
    ∀ (st : CronState) (id : Int) (e : entry),
      lookupEntry st id = some e → e.mode = RunMode.ModeJobSerial →
      e.recov = false → e.status = StatusReady →
      Call st id Behavior.fault = ⟨SetStatus st id StatusRunning, true, true⟩ ∧
        GetStatus (Call st id Behavior.fault).st id = StatusRunning ∧
        lookupEntry (Call st id Behavior.fault).st id
          = some { e with status := StatusRunning } := by
  intro st id e h hmode hrecov hst
  have h1 : Call st id Behavior.fault
      = runWrapped st id e.mode e.recov Behavior.fault := by
    unfold Call
    rw [h]
  have hget : GetStatus st id = StatusReady := by
    rw [GetStatus_of_lookup st id e h, hst]
  have hcond : (GetStatus st id == StatusRunning) = false := by
    simp [hget, StatusReady, StatusRunning]
  have hrun : Call st id Behavior.fault
      = ⟨SetStatus st id StatusRunning, true, true⟩ := by
    rw [h1, hmode, hrecov]
    unfold runWrapped
    simp [hcond]
  refine ⟨hrun, ?_, ?_⟩
  · rw [hrun]
    exact GetStatus_SetStatus_self st id StatusRunning e h
  · rw [hrun]
    show lookupEntry (SetStatus st id StatusRunning) id = _
    rw [lookupEntry_SetStatus_self, h]
    rfl

/-- Witness for the amended C1 on a concrete ready, recovery-disabled job. -/
theorem serial_fault_unrecovered_leaves_running_witness :
    Call readyNoRecoverState 1 Behavior.fault
        = ⟨SetStatus readyNoRecoverState 1 StatusRunning, true, true⟩ ∧
      GetStatus (Call readyNoRecoverState 1 Behavior.fault).st 1
        = StatusRunning ∧
      lookupEntry (Call readyNoRecoverState 1 Behavior.fault).st 1
        = some { readyNoRecoverEntry with status := StatusRunning } :=
  serial_fault_unrecovered_leaves_running readyNoRecoverState 1
    readyNoRecoverEntry rfl rfl rfl rfl

/-! ### Lemmas about AddJob -/

theorem lookupEntry_gt_none (st : CronState) (h : idsBounded st) (id : Int)
    (hid : st.nextID < id) : lookupEntry st id = none := by
  unfold lookupEntry
  simp only [Option.map_eq_none']
  rw [List.find?_eq_none]
  intro p hp
  have hb := h p hp
  simp only [beq_iff_eq]
  omega

theorem find?_append_key_absent (l : List (Int × entry)) (id : Int) (e : entry)
    (ha : ∀ p ∈ l, ¬ p.1 = id) :
    (l ++ [(id, e)]).find? (fun p => p.1 == id) = some (id, e) := by
  induction l with
  | nil =>
    rw [List.nil_append]
    exact List.find?_cons_of_pos _ (by simp)
  | cons p l ih =>
    have hp : ((fun p : Int × entry => p.1 == id) p) = false := by
      simpa using ha p (List.mem_cons_self _ _)
    rw [List.cons_append, List.find?_cons_of_neg _ (by simp [hp])]
    exact ih (fun q hq => ha q (List.mem_cons_of_mem _ hq))

theorem find?_storeEntry_self (l : List (Int × entry)) (id : Int) (e : entry) :
    (storeEntry l id e).find? (fun p => p.1 == id) = some (id, e) := by
  unfold storeEntry
  cases ha : l.any (fun p => p.1 == id) with
  | true =>
    simp only [ha, if_true]
    rw [find?_map_fst_preserving _ (fun p => by by_cases h : p.1 = id <;> simp [h])]
    cases hf : l.find? (fun p => p.1 == id) with
    | none =>
      rw [List.find?_eq_none] at hf
      rw [List.any_eq_true] at ha
      obtain ⟨x, hx, hpx⟩ := ha
      exact absurd hpx (hf x hx)
    | some q =>
      have hq : q.1 = id := by simpa using List.find?_some hf
      simp [hq]
  | false =>
    simp only [ha, Bool.false_eq_true, if_false]
    apply find?_append_key_absent
    intro p hp
    rw [← Bool.not_eq_true, List.any_eq_true] at ha
    intro hc
    exact ha ⟨p, hp, by simp [hc]⟩

theorem lookupEntry_storeEntry_self (st : CronState) (l : List (Int × entry))
    (id : Int) (e : entry)
    (h : st.entries = storeEntry l id e) : lookupEntry st id = some e := by
  unfold lookupEntry
  rw [h, find?_storeEntry_self]
  rfl

/-! ### C4 -/

/-- C4: when the trigger engine rejects the schedule expression, `AddJob`
returns the invalid-ID sentinel `-1`, stores no job record, and leaves the
registry (and the engine's registrations) exactly as before the call — only the
private allocator counter has advanced — and dispatches no immediate fire.
The `idsBounded` hypothesis is the reachable-state invariant that registry IDs
never exceed the allocator counter. -/
theorem addJob_invalid_spec_no_partial_state :
    ∀ (valid : String → Bool) (st : CronState) (spec : String) (opts : List Opt),
      idsBounded st → valid spec = false →
      (AddJob valid st spec opts).id = -1 ∧
      (AddJob valid st spec opts).st.entries = st.entries ∧
      (AddJob valid st spec opts).st.engine = st.engine ∧
      (AddJob valid st spec opts).immediateDispatched = false := by
  intro valid st spec opts hb hv
  have hl : lookupEntry { st with nextID := st.nextID + 1 } (st.nextID + 1)
      = none := by
    have : lookupEntry { st with nextID := st.nextID + 1 } (st.nextID + 1)
        = lookupEntry st (st.nextID + 1) := rfl
    rw [this]
    exact lookupEntry_gt_none st hb _ (by omega)
  unfold AddJob genID
  simp only [hl]
  unfold engineAddFunc
  simp [hv]

/-- Witness for C4: a rejected expression on a concrete one-job state. -/
theorem addJob_invalid_spec_no_partial_state_witness :
    (AddJob (fun _ => false) readySerialState "bogus" []).id = -1 ∧
    (AddJob (fun _ => false) readySerialState "bogus" []).st.entries
      = readySerialState.entries ∧
    (AddJob (fun _ => false) readySerialState "bogus" []).st.engine
      = readySerialState.engine ∧
    (AddJob (fun _ => false) readySerialState "bogus" []).immediateDispatched
      = false :=
  addJob_invalid_spec_no_partial_state (fun _ => false) readySerialState
    "bogus" [] (by unfold idsBounded; decide) rfl

/-! ### C10 -/

/-- C10: the `Immediately` one-shot fire is dispatched only if trigger-engine
registration succeeded and the option is set; at dispatch time the job record
is already stored in the registry with status Ready and the closure's captured
options.  On a registration failure no immediate fire occurs. -/
theorem immediate_fire_only_after_store :
    ∀ (valid : String → Bool) (st : CronState) (spec : String) (opts : List Opt),
      (valid spec = false →
        (AddJob valid st spec opts).immediateDispatched = false) ∧
      ((AddJob valid st spec opts).immediateDispatched = true →
        valid spec = true ∧ (applyOptions opts).Immediately = true ∧
        ∃ e : entry,
          lookupEntry (AddJob valid st spec opts).st
              (AddJob valid st spec opts).id = some e ∧
            e.status = StatusReady ∧ e.mode = (applyOptions opts).RunMode ∧
            e.recov = (applyOptions opts).Recover) := by
  intro valid st spec opts
  cases hv : valid spec with
  | false =>
    constructor
    · intro _
      unfold AddJob engineAddFunc
      simp [hv]
    · intro hd
      exfalso
      unfold AddJob engineAddFunc at hd
      simp [hv] at hd
  | true =>
    constructor
    · intro hc
      exact Bool.noConfusion hc
    · intro hd
      refine ⟨rfl, ?_, ?_⟩
      · unfold AddJob engineAddFunc at hd
        simpa [hv] using hd
      · unfold AddJob genID engineAddFunc
        simp only [hv, if_true]
        cases hl : lookupEntry { st with nextID := st.nextID + 1 }
            (st.nextID + 1) with
        | none =>
          simp only [hl]
          exact ⟨_, lookupEntry_storeEntry_self _ _ _ _ rfl, rfl, rfl, rfl⟩
        | some e0 =>
          simp only [hl]
          exact ⟨_, lookupEntry_storeEntry_self _ _ _ _ rfl, rfl, rfl, rfl⟩

/-! ### Lemmas for traces of firings and calls -/

theorem lookupEntry_runWrapped_ne (st : CronState) (j : Int) (m : RunMode)
    (r : Bool) (b : Behavior) (id : Int) (h : id ≠ j) :
    lookupEntry (runWrapped st j m r b).st id = lookupEntry st id := by
  unfold runWrapped
  cases m with
  | ModeJobSerial =>
    dsimp only
    split
    · rfl
    · split <;> simp [lookupEntry_SetStatus_ne _ _ _ _ h]
  | ModeTimeFirst => rfl

theorem lookupEntry_Call_timeFirst (st : CronState) (id : Int) (e : entry)
    (j : Int) (b : Behavior) (h : lookupEntry st id = some e)
    (hm : e.mode = RunMode.ModeTimeFirst) :
    lookupEntry (Call st j b).st id = some e := by
  by_cases hj : id = j
  · subst hj
    have h1 : Call st id b = runWrapped st id e.mode e.recov b := by
      unfold Call
      rw [h]
    rw [h1, hm]
    exact h
  · unfold Call
    cases hl : lookupEntry st j with
    | none => exact h
    | some e0 => rw [lookupEntry_runWrapped_ne st j e0.mode e0.recov b id hj, h]

theorem lookupEntry_runCalls_timeFirst (t : List (Int × Behavior))
    (st : CronState) (id : Int) (e : entry) (h : lookupEntry st id = some e)
    (hm : e.mode = RunMode.ModeTimeFirst) :
    lookupEntry (runCalls st t) id = some e := by
  induction t generalizing st with
  | nil => exact h
  | cons p t ih =>
    show lookupEntry (runCalls (Call st p.1 p.2).st t) id = some e
    exact ih _ (lookupEntry_Call_timeFirst st id e p.1 p.2 h hm)

/-! ### C6 -/

/-- C6: a freshly registered job reports status Ready before any execution;
a firing of a TimeFirst-mode wrapped callback performs no state mutation at
all; and a TimeFirst job still reports Ready after any sequence of firings and
manual calls targeting arbitrary jobs. -/
theorem getStatus_ready_timeFirst_invariant :
    (∀ (valid : String → Bool) (st : CronState) (spec : String) (opts : List Opt),
        (AddJob valid st spec opts).id ≠ -1 →
        GetStatus (AddJob valid st spec opts).st (AddJob valid st spec opts).id
          = StatusReady) ∧
    (∀ (st : CronState) (id : Int) (recov : Bool) (b : Behavior),
        (runWrapped st id RunMode.ModeTimeFirst recov b).st = st) ∧
    (∀ (st : CronState) (id : Int) (e : entry) (t : List (Int × Behavior)),
        lookupEntry st id = some e → e.mode = RunMode.ModeTimeFirst →
        e.status = StatusReady →
        GetStatus (runCalls st t) id = StatusReady) := by
  refine ⟨?_, fun _ _ _ _ => rfl, ?_⟩
  · intro valid st spec opts hid
    cases hv : valid spec with
    | false =>
      exfalso
      apply hid
      unfold AddJob genID engineAddFunc
      cases hl : lookupEntry { st with nextID := st.nextID + 1 }
          (st.nextID + 1) <;> simp [hl, hv]
    | true =>
      have hstore : ∃ l : List (Int × entry), ∃ e : entry,
          (AddJob valid st spec opts).st.entries
            = storeEntry l (AddJob valid st spec opts).id e ∧
          e.status = StatusReady := by
        unfold AddJob genID engineAddFunc
        simp only [hv, if_true]
        cases hl : lookupEntry { st with nextID := st.nextID + 1 }
            (st.nextID + 1) with
        | none =>
          simp only [hl]
          exact ⟨_, _, rfl, rfl⟩
        | some e0 =>
          simp only [hl]
          exact ⟨_, _, rfl, rfl⟩
      obtain ⟨l, e, hl, he⟩ := hstore
      rw [GetStatus_of_lookup _ _ e (lookupEntry_storeEntry_self _ l _ e hl), he]
  · intro st id e t h hm hst
    rw [GetStatus_of_lookup _ _ e (lookupEntry_runCalls_timeFirst t st id e h hm),
      hst]

/-- Witness for C6: a fresh registration reports Ready, and a TimeFirst job
stays Ready across a trace of firings and calls. -/
theorem getStatus_ready_timeFirst_invariant_witness :
    GetStatus (AddJob (fun _ => true) NewCron "* * * * * *" []).st
        (AddJob (fun _ => true) NewCron "* * * * * *" []).id = StatusReady ∧
    (runWrapped readyTimeFirstState 1 RunMode.ModeTimeFirst true
        Behavior.fault).st = readyTimeFirstState ∧
    GetStatus (runCalls readyTimeFirstState
        [(1, Behavior.fault), (1, Behavior.normal), (2, Behavior.normal)]) 1
      = StatusReady :=
  ⟨getStatus_ready_timeFirst_invariant.1 (fun _ => true) NewCron "* * * * * *" []
      (by decide),
   getStatus_ready_timeFirst_invariant.2.1 readyTimeFirstState 1 true
      Behavior.fault,
   getStatus_ready_timeFirst_invariant.2.2 readyTimeFirstState 1
      readyTimeFirstEntry
      [(1, Behavior.fault), (1, Behavior.normal), (2, Behavior.normal)]
      rfl rfl rfl⟩

/-- Witness for C10: a successful immediate registration and a failing one. -/
theorem immediate_fire_only_after_store_witness :
    (AddJob (fun _ => false) NewCron "bogus"
        [Opt.withImmediately true]).immediateDispatched = false ∧
    ((fun _ => true) "* * * * * *" = true ∧
      (applyOptions [Opt.withImmediately true]).Immediately = true ∧
      ∃ e : entry,
        lookupEntry (AddJob (fun _ => true) NewCron "* * * * * *"
            [Opt.withImmediately true]).st
            (AddJob (fun _ => true) NewCron "* * * * * *"
              [Opt.withImmediately true]).id = some e ∧
          e.status = StatusReady ∧
          e.mode = (applyOptions [Opt.withImmediately true]).RunMode ∧
          e.recov = (applyOptions [Opt.withImmediately true]).Recover) :=
  ⟨(immediate_fire_only_after_store (fun _ => false) NewCron "bogus"
      [Opt.withImmediately true]).1 rfl,
   (immediate_fire_only_after_store (fun _ => true) NewCron "* * * * * *"
      [Opt.withImmediately true]).2 rfl⟩

/-! ### Lemmas about the allocator counter -/

theorem engineAddFunc_entries (valid : String → Bool) (st : CronState)
    (spec : String) : (engineAddFunc valid st spec).2.entries = st.entries := by
  unfold engineAddFunc
  cases hv : valid spec <;> simp [hv]

theorem engineAddFunc_nextID (valid : String → Bool) (st : CronState)
    (spec : String) : (engineAddFunc valid st spec).2.nextID = st.nextID := by
  unfold engineAddFunc
  cases hv : valid spec <;> simp [hv]

theorem AddJob_nextID (valid : String → Bool) (st : CronState) (spec : String)
    (opts : List Opt) :
    (AddJob valid st spec opts).st.nextID = st.nextID + 1 := by
  unfold AddJob genID
  simp only
  cases hl : lookupEntry { st with nextID := st.nextID + 1 } (st.nextID + 1) with
  | none =>
    unfold engineAddFunc
    cases hv : valid spec <;> simp [hv]
  | some e0 =>
    unfold engineAddFunc
    cases hv : valid spec <;>
      simp [hv, RemoveJob_nextID { st with nextID := st.nextID + 1 } (st.nextID + 1)]

theorem scheduledFire_nextID (st : CronState) (id : Int) (mode : RunMode)
    (recov : Bool) (b : Behavior) :
    (scheduledFire st id mode recov b).st.nextID = st.nextID :=
  runWrapped_nextID st id mode recov b

theorem applyAction_nextID_mono (valid : String → Bool) (st : CronState)
    (a : OpAction) : st.nextID ≤ (applyAction valid st a).nextID := by
  cases a with
  | add spec opts =>
    show st.nextID ≤ (AddJob valid st spec opts).st.nextID
    rw [AddJob_nextID]
    omega
  | remove id => exact le_of_eq (RemoveJob_nextID st id).symm
  | call id b => exact le_of_eq (Call_nextID st id b).symm
  | fire id mode recov b => exact le_of_eq (scheduledFire_nextID st id mode recov b).symm
  | setStatus id v => exact le_of_eq (SetStatus_nextID st id v).symm

theorem runActions_nextID_mono (valid : String → Bool) (st : CronState)
    (t : List OpAction) : st.nextID ≤ (runActions valid st t).nextID := by
  induction t generalizing st with
  | nil => exact le_refl _
  | cons a t ih =>
    calc st.nextID ≤ (applyAction valid st a).nextID :=
          applyAction_nextID_mono valid st a
      _ ≤ (runActions valid (applyAction valid st a) t).nextID := ih _

/-! ### The reachable-state invariant `idsBounded` -/

theorem storeEntry_mem (l : List (Int × entry)) (id : Int) (e : entry)
    (p : Int × entry) (hp : p ∈ storeEntry l id e) :
    (∃ q ∈ l, p.1 = q.1) ∨ p = (id, e) := by
  unfold storeEntry at hp
  split at hp
  · obtain ⟨q, hq, hfq⟩ := List.mem_map.1 hp
    by_cases hqi : q.1 = id
    · right
      rw [← hfq]
      simp [hqi]
    · left
      refine ⟨q, hq, ?_⟩
      rw [← hfq]
      simp [hqi]
  · rcases List.mem_append.1 hp with h | h
    · exact Or.inl ⟨p, h, rfl⟩
    · simp at h
      exact Or.inr (by simp [h])

theorem SetStatus_keys (st : CronState) (id : Int) (v : Nat) (p : Int × entry)
    (hp : p ∈ (SetStatus st id v).entries) : ∃ q ∈ st.entries, p.1 = q.1 := by
  unfold SetStatus at hp
  split at hp
  · exact ⟨p, hp, rfl⟩
  · obtain ⟨q, hq, hfq⟩ := List.mem_map.1 hp
    refine ⟨q, hq, ?_⟩
    rw [← hfq]
    by_cases hqi : q.1 = id <;> simp [hqi]

theorem runWrapped_keys (st : CronState) (j : Int) (m : RunMode) (r : Bool)
    (b : Behavior) (p : Int × entry)
    (hp : p ∈ (runWrapped st j m r b).st.entries) :
    ∃ q ∈ st.entries, p.1 = q.1 := by
  unfold runWrapped at hp
  cases m with
  | ModeJobSerial =>
    dsimp only at hp
    split at hp
    · exact ⟨p, hp, rfl⟩
    · split at hp
      · obtain ⟨q, hq, hpq⟩ := SetStatus_keys _ _ _ p hp
        obtain ⟨q2, hq2, hqq2⟩ := SetStatus_keys _ _ _ q hq
        exact ⟨q2, hq2, hpq.trans hqq2⟩
      · exact SetStatus_keys _ _ _ p hp
  | ModeTimeFirst => exact ⟨p, hp, rfl⟩

theorem idsBounded_SetStatus (st : CronState) (id : Int) (v : Nat)
    (h : idsBounded st) : idsBounded (SetStatus st id v) := by
  intro p hp
  obtain ⟨q, hq, hpq⟩ := SetStatus_keys st id v p hp
  rw [SetStatus_nextID, hpq]
  exact h q hq

theorem idsBounded_RemoveJob (st : CronState) (id : Int)
    (h : idsBounded st) : idsBounded (RemoveJob st id) := by
  intro p hp
  rw [RemoveJob_nextID]
  apply h
  unfold RemoveJob at hp
  split at hp
  · exact hp
  · exact List.mem_of_mem_filter hp

theorem idsBounded_runWrapped (st : CronState) (j : Int) (m : RunMode)
    (r : Bool) (b : Behavior) (h : idsBounded st) :
    idsBounded (runWrapped st j m r b).st := by
  intro p hp
  obtain ⟨q, hq, hpq⟩ := runWrapped_keys st j m r b p hp
  rw [runWrapped_nextID, hpq]
  exact h q hq

theorem idsBounded_Call (st : CronState) (id : Int) (b : Behavior)
    (h : idsBounded st) : idsBounded (Call st id b).st := by
  unfold Call
  cases lookupEntry st id with
  | none => exact h
  | some e => exact idsBounded_runWrapped st id e.mode e.recov b h

theorem idsBounded_AddJob (valid : String → Bool) (st : CronState)
    (spec : String) (opts : List Opt) (h : idsBounded st) :
    idsBounded (AddJob valid st spec opts).st := by
  intro p hp
  rw [AddJob_nextID]
  revert hp
  unfold AddJob genID
  simp only
  cases hl : lookupEntry { st with nextID := st.nextID + 1 } (st.nextID + 1) with
  | none =>
    unfold engineAddFunc
    cases hv : valid spec with
    | false =>
      simp only [hv]
      intro hp
      have := h p hp
      omega
    | true =>
      simp only [hv, if_true]
      intro hp
      rcases storeEntry_mem _ _ _ p hp with ⟨q, hq, hpq⟩ | hpe
      · have := h q hq
        omega
      · simp [hpe]
  | some e0 =>
    unfold engineAddFunc
    cases hv : valid spec with
    | false =>
      simp only [hv]
      intro hp
      have hb2 := idsBounded_RemoveJob { st with nextID := st.nextID + 1 }
        (st.nextID + 1) (fun q hq => by have := h q hq; simp; omega) p hp
      rw [RemoveJob_nextID] at hb2
      simpa using hb2
    | true =>
      simp only [hv, if_true]
      intro hp
      rcases storeEntry_mem _ _ _ p hp with ⟨q, hq, hpq⟩ | hpe
      · have hb2 := idsBounded_RemoveJob { st with nextID := st.nextID + 1 }
          (st.nextID + 1) (fun q2 hq2 => by have := h q2 hq2; simp; omega) q hq
        rw [RemoveJob_nextID] at hb2
        simp at hb2
        omega
      · simp [hpe]

theorem idsBounded_applyAction (valid : String → Bool) (st : CronState)
    (a : OpAction) (h : idsBounded st) : idsBounded (applyAction valid st a) := by
  cases a with
  | add spec opts => exact idsBounded_AddJob valid st spec opts h
  | remove id => exact idsBounded_RemoveJob st id h
  | call id b => exact idsBounded_Call st id b h
  | fire id mode recov b => exact idsBounded_runWrapped st id mode recov b h
  | setStatus id v => exact idsBounded_SetStatus st id v h

/-- Every state reachable from a fresh instance satisfies `idsBounded`:
registry IDs never exceed the allocator counter. -/
theorem idsBounded_runActions (valid : String → Bool) (t : List OpAction) :
    idsBounded (runActions valid NewCron t) := by
  have h0 : idsBounded NewCron := by
    intro p hp
    cases hp
  suffices hgen : ∀ (st : CronState), idsBounded st →
      idsBounded (runActions valid st t) from hgen NewCron h0
  induction t with
  | nil => exact fun st h => h
  | cons a t ih =>
    intro st h
    exact ih _ (idsBounded_applyAction valid st a h)

/-! ### C9 -/

/-- C9: the ID allocator is strictly increasing and never reuses a value.
`genID` on a fresh instance (after any interleaving of operations) returns a
positive value, and for any two `genID` calls separated by an arbitrary
sequence of operations — including `RemoveJob` — the second result is strictly
greater than the first, so no value is ever returned twice and a removed job's
ID is never handed out again. -/
theorem genID_strictly_increasing :
    (∀ (valid : String → Bool) (t : List OpAction),
        0 < (genID (runActions valid NewCron t)).1) ∧
    (∀ (valid : String → Bool) (st : CronState) (t : List OpAction),
        (genID st).1 < (genID (runActions valid (genID st).2 t)).1) := by
  constructor
  · intro valid t
    have h1 : (0 : Int) ≤ NewCron.nextID := le_refl 0
    have h2 := runActions_nextID_mono valid NewCron t
    show 0 < (runActions valid NewCron t).nextID + 1
    omega
  · intro valid st t
    have h2 := runActions_nextID_mono valid { st with nextID := st.nextID + 1 } t
    show st.nextID + 1 < (runActions valid { st with nextID := st.nextID + 1 } t).nextID + 1
    simp only at h2
    omega

/-! ### Lemmas about schedule-expression fields -/

theorem foldr_splitFieldsAux_noSpace (A : List Char) (h : ∀ c ∈ A, c ≠ ' ')
    (a : List Char) (as : List (List Char)) :
    A.foldr splitFieldsAux (a :: as) = (A ++ a) :: as := by
  induction A with
  | nil => rfl
  | cons c A ih =>
    simp only [List.foldr_cons]
    rw [ih (fun x hx => h x (List.mem_cons_of_mem _ hx))]
    simp [splitFieldsAux, h c (List.mem_cons_self _ _)]

theorem tokenize_joinTokens (ts : List (List Char)) (hne : ts ≠ [])
    (h : ∀ t ∈ ts, ∀ c ∈ t, c ≠ ' ') :
    tokenize (joinTokens ts) = ts := by
  induction ts with
  | nil => exact absurd rfl hne
  | cons t ts ih =>
    cases ts with
    | nil =>
      show tokenize (joinTokens [t]) = [t]
      have hj : joinTokens [t] = t := rfl
      rw [hj]
      have := foldr_splitFieldsAux_noSpace t (h t (List.mem_cons_self _ _)) [] []
      simpa [tokenize] using this
    | cons u ts' =>
      show tokenize (t ++ ' ' :: joinTokens (u :: ts')) = t :: u :: ts'
      unfold tokenize
      rw [List.foldr_append]
      have hrest : (' ' :: joinTokens (u :: ts')).foldr splitFieldsAux [[]]
          = [] :: tokenize (joinTokens (u :: ts')) := by
        simp [tokenize, splitFieldsAux]
      rw [hrest, ih (by simp) (fun x hx => h x (List.mem_cons_of_mem _ hx))]
      have := foldr_splitFieldsAux_noSpace t (h t (List.mem_cons_self _ _)) []
        (u :: ts')
      simpa using this

theorem specFields_of_joinTokens (s : String) (ts : List (List Char))
    (hdata : s.data = joinTokens ts) (hne : ts ≠ [])
    (h : ∀ t ∈ ts, ∀ c ∈ t, c ≠ ' ') :
    specFields s = ts.map (fun l => String.mk l) := by
  unfold specFields
  rw [hdata, tokenize_joinTokens ts hne h]

theorem noSpace_toString60 : ∀ n : Nat, n < 60 → ∀ c ∈ (toString n).data, c ≠ ' ' := by
  decide

theorem parseNat?_toString60 : ∀ n : Nat, n < 60 → parseNat? (toString n) = some n := by
  decide

theorem toString_int_nonneg (z : Int) (h : 0 ≤ z) : toString z = toString z.toNat := by
  obtain ⟨m, rfl⟩ := Int.eq_ofNat_of_zero_le h
  rfl

theorem parseNat?_star (l : List Char) : parseNat? (String.mk ('*' :: l)) = none := by
  show parseNatAux ('*' :: l) 0 = none
  unfold parseNatAux
  have hstar : ('*').isDigit = false := by decide
  simp [hstar]

theorem numericFieldOk_star (lo hi : Nat) (l : List Char) :
    numericFieldOk lo hi (String.mk ('*' :: l)) = true := by
  unfold numericFieldOk
  rw [parseNat?_star]

theorem numericFieldOk_toString60 (lo hi a : Nat) (ha : a < 60) (h1 : lo ≤ a)
    (h2 : a ≤ hi) : numericFieldOk lo hi (toString a) = true := by
  unfold numericFieldOk
  rw [parseNat?_toString60 a ha]
  simp [h1, h2]

theorem claimOk_of_fields (s : String) (t0 t1 t2 t3 t4 t5 : String)
    (hfs : specFields s = [t0, t1, t2, t3, t4, t5])
    (h0 : numericFieldOk 0 59 t0 = true) (h1 : numericFieldOk 0 59 t1 = true)
    (h2 : numericFieldOk 0 23 t2 = true) (h3 : numericFieldOk 1 31 t3 = true) :
    claimSubUnitFieldsOk s = true := by
  unfold claimSubUnitFieldsOk
  rw [hfs]
  simp [List.getD, h0, h1, h2, h3]

theorem clamp_exists (n lo hi : Int) (h0 : 0 ≤ lo) (hh : lo ≤ hi)
    (hlt : hi < 60) :
    ∃ m : Nat, m < 60 ∧ lo ≤ (m : Int) ∧ (m : Int) ≤ hi ∧
      toString (if n < lo || n > hi then hi else n) = toString m := by
  split
  · exact ⟨hi.toNat, by omega, by omega, by omega,
      toString_int_nonneg hi (by omega)⟩
  · rename_i hcond
    simp only [Bool.or_eq_true, decide_eq_true_eq, not_or] at hcond
    exact ⟨n.toNat, by omega, by omega, by omega,
      toString_int_nonneg n (by omega)⟩

theorem noSpace_star_token (m : Nat) (hm : m < 60) :
    ∀ c ∈ '*' :: '/' :: (toString m).data, c ≠ ' ' := by
  intro c hc
  simp only [List.mem_cons] at hc
  rcases hc with rfl | rfl | hc
  · decide
  · decide
  · exact noSpace_toString60 m hm c hc

theorem intn_lt60 (g : Nat → Nat) (k : Nat) : intn g k 60 < 60 :=
  Nat.mod_lt _ (by norm_num)

theorem intn_lt24 (g : Nat → Nat) (k : Nat) : intn g k 24 < 24 :=
  Nat.mod_lt _ (by norm_num)

theorem claimOk_second (sec : Int) :
    claimSubUnitFieldsOk (addSecondSpec sec) = true := by
  obtain ⟨m, hm60, -, -, hms⟩ :=
    clamp_exists sec 0 59 (by norm_num) (by norm_num) (by norm_num)
  have hdata : (addSecondSpec sec).data
      = joinTokens ['*' :: '/' :: (toString m).data,
          ['*'], ['*'], ['*'], ['*'], ['*']] := by
    show ("*/" : String).data
        ++ (toString (if sec < 0 || sec > 59 then (59 : Int) else sec)).data
        ++ (" * * * * *" : String).data = _
    rw [hms]
    have l1 : ("*/" : String).data = ['*', '/'] := rfl
    have l2 : (" * * * * *" : String).data
        = [' ', '*', ' ', '*', ' ', '*', ' ', '*', ' ', '*'] := rfl
    rw [l1, l2]
    simp [joinTokens]
  have hside : ∀ t ∈ ['*' :: '/' :: (toString m).data,
      ['*'], ['*'], ['*'], ['*'], ['*']], ∀ c ∈ t, c ≠ ' ' := by
    intro t ht
    simp only [List.mem_cons, List.not_mem_nil, or_false] at ht
    rcases ht with rfl | rfl | rfl | rfl | rfl | rfl
    · exact noSpace_star_token m hm60
    all_goals decide
  have hfs := specFields_of_joinTokens (addSecondSpec sec) _ hdata (by simp) hside
  simp only [List.map_cons, List.map_nil] at hfs
  exact claimOk_of_fields _ _ _ _ _ _ _ hfs (numericFieldOk_star _ _ _)
    (numericFieldOk_star _ _ _) (numericFieldOk_star _ _ _)
    (numericFieldOk_star _ _ _)

theorem claimOk_minute (g : Nat → Nat) (min : Int) :
    claimSubUnitFieldsOk (addMinuteSpec g true min) = true := by
  obtain ⟨m, hm60, -, -, hms⟩ :=
    clamp_exists min 0 59 (by norm_num) (by norm_num) (by norm_num)
  have hdata : (addMinuteSpec g true min).data
      = joinTokens [(toString (intn g 0 60)).data, '*' :: '/' :: (toString m).data,
          ['*'], ['*'], ['*'], ['*']] := by
    show (toString (intn g 0 60)).data ++ (" */" : String).data
        ++ (toString (if min < 0 || min > 59 then (59 : Int) else min)).data
        ++ (" * * * *" : String).data = _
    rw [hms]
    have l1 : (" */" : String).data = [' ', '*', '/'] := rfl
    have l2 : (" * * * *" : String).data
        = [' ', '*', ' ', '*', ' ', '*', ' ', '*'] := rfl
    rw [l1, l2]
    simp [joinTokens]
  have hside : ∀ t ∈ [(toString (intn g 0 60)).data,
      '*' :: '/' :: (toString m).data, ['*'], ['*'], ['*'], ['*']],
      ∀ c ∈ t, c ≠ ' ' := by
    intro t ht
    simp only [List.mem_cons, List.not_mem_nil, or_false] at ht
    rcases ht with rfl | rfl | rfl | rfl | rfl | rfl
    · exact noSpace_toString60 _ (intn_lt60 g 0)
    · exact noSpace_star_token m hm60
    all_goals decide
  have hfs := specFields_of_joinTokens (addMinuteSpec g true min) _ hdata
    (by simp) hside
  simp only [List.map_cons, List.map_nil] at hfs
  exact claimOk_of_fields _ _ _ _ _ _ _ hfs
    (numericFieldOk_toString60 0 59 _ (intn_lt60 g 0) (Nat.zero_le _)
      (by have := intn_lt60 g 0; omega))
    (numericFieldOk_star _ _ _) (numericFieldOk_star _ _ _)
    (numericFieldOk_star _ _ _)

theorem claimOk_hour (g : Nat → Nat) (hour : Int) :
    claimSubUnitFieldsOk (addHourSpec g true hour) = true := by
  obtain ⟨m, hm60, -, -, hms⟩ :=
    clamp_exists hour 0 23 (by norm_num) (by norm_num) (by norm_num)
  have hdata : (addHourSpec g true hour).data
      = joinTokens [(toString (intn g 0 60)).data, (toString (intn g 1 60)).data,
          '*' :: '/' :: (toString m).data, ['*'], ['*'], ['*']] := by
    show (toString (intn g 0 60)).data ++ (" " : String).data
        ++ (toString (intn g 1 60)).data ++ (" */" : String).data
        ++ (toString (if hour < 0 || hour > 23 then (23 : Int) else hour)).data
        ++ (" * * *" : String).data = _
    rw [hms]
    have l1 : (" " : String).data = [' '] := rfl
    have l2 : (" */" : String).data = [' ', '*', '/'] := rfl
    have l3 : (" * * *" : String).data = [' ', '*', ' ', '*', ' ', '*'] := rfl
    rw [l1, l2, l3]
    simp [joinTokens]
  have hside : ∀ t ∈ [(toString (intn g 0 60)).data, (toString (intn g 1 60)).data,
      '*' :: '/' :: (toString m).data, ['*'], ['*'], ['*']],
      ∀ c ∈ t, c ≠ ' ' := by
    intro t ht
    simp only [List.mem_cons, List.not_mem_nil, or_false] at ht
    rcases ht with rfl | rfl | rfl | rfl | rfl | rfl
    · exact noSpace_toString60 _ (intn_lt60 g 0)
    · exact noSpace_toString60 _ (intn_lt60 g 1)
    · exact noSpace_star_token m hm60
    all_goals decide
  have hfs := specFields_of_joinTokens (addHourSpec g true hour) _ hdata
    (by simp) hside
  simp only [List.map_cons, List.map_nil] at hfs
  exact claimOk_of_fields _ _ _ _ _ _ _ hfs
    (numericFieldOk_toString60 0 59 _ (intn_lt60 g 0) (Nat.zero_le _)
      (by have := intn_lt60 g 0; omega))
    (numericFieldOk_toString60 0 59 _ (intn_lt60 g 1) (Nat.zero_le _)
      (by have := intn_lt60 g 1; omega))
    (numericFieldOk_star _ _ _) (numericFieldOk_star _ _ _)

theorem claimOk_day (g : Nat → Nat) (day : Int) :
    claimSubUnitFieldsOk (addDaySpec g true day) = true := by
  obtain ⟨m, hm60, -, -, hms⟩ :=
    clamp_exists day 1 31 (by norm_num) (by norm_num) (by norm_num)
  have hdata : (addDaySpec g true day).data
      = joinTokens [(toString (intn g 0 60)).data, (toString (intn g 1 60)).data,
          (toString (intn g 2 24)).data, '*' :: '/' :: (toString m).data,
          ['*'], ['*']] := by
    show (toString (intn g 0 60)).data ++ (" " : String).data
        ++ (toString (intn g 1 60)).data ++ (" " : String).data
        ++ (toString (intn g 2 24)).data ++ (" */" : String).data
        ++ (toString (if day < 1 || day > 31 then (31 : Int) else day)).data
        ++ (" * *" : String).data = _
    rw [hms]
    have l1 : (" " : String).data = [' '] := rfl
    have l2 : (" */" : String).data = [' ', '*', '/'] := rfl
    have l3 : (" * *" : String).data = [' ', '*', ' ', '*'] := rfl
    rw [l1, l2, l3]
    simp [joinTokens]
  have hside : ∀ t ∈ [(toString (intn g 0 60)).data, (toString (intn g 1 60)).data,
      (toString (intn g 2 24)).data, '*' :: '/' :: (toString m).data,
      ['*'], ['*']], ∀ c ∈ t, c ≠ ' ' := by
    intro t ht
    simp only [List.mem_cons, List.not_mem_nil, or_false] at ht
    rcases ht with rfl | rfl | rfl | rfl | rfl | rfl
    · exact noSpace_toString60 _ (intn_lt60 g 0)
    · exact noSpace_toString60 _ (intn_lt60 g 1)
    · exact noSpace_toString60 _ (by have := intn_lt24 g 2; omega)
    · exact noSpace_star_token m hm60
    all_goals decide
  have hfs := specFields_of_joinTokens (addDaySpec g true day) _ hdata
    (by simp) hside
  simp only [List.map_cons, List.map_nil] at hfs
  exact claimOk_of_fields _ _ _ _ _ _ _ hfs
    (numericFieldOk_toString60 0 59 _ (intn_lt60 g 0) (Nat.zero_le _)
      (by have := intn_lt60 g 0; omega))
    (numericFieldOk_toString60 0 59 _ (intn_lt60 g 1) (Nat.zero_le _)
      (by have := intn_lt60 g 1; omega))
    (numericFieldOk_toString60 0 23 _ (by have := intn_lt24 g 2; omega)
      (Nat.zero_le _) (by have := intn_lt24 g 2; omega))
    (numericFieldOk_star _ _ _)

theorem claimOk_month (g : Nat → Nat) (mon : Int) :
    claimSubUnitFieldsOk (addMonthSpec g true mon) = true := by
  obtain ⟨m, hm60, -, -, hms⟩ :=
    clamp_exists mon 0 12 (by norm_num) (by norm_num) (by norm_num)
  have hdata : (addMonthSpec g true mon).data
      = joinTokens [(toString (intn g 0 60)).data, (toString (intn g 1 60)).data,
          (toString (intn g 2 24)).data, (toString (intn g 3 29 + 1)).data,
          '*' :: '/' :: (toString m).data, ['*']] := by
    show (toString (intn g 0 60)).data ++ (" " : String).data
        ++ (toString (intn g 1 60)).data ++ (" " : String).data
        ++ (toString (intn g 2 24)).data ++ (" " : String).data
        ++ (toString (intn g 3 29 + 1)).data ++ (" */" : String).data
        ++ (toString (if mon < 0 || mon > 12 then (12 : Int) else mon)).data
        ++ (" *" : String).data = _
    rw [hms]
    have l1 : (" " : String).data = [' '] := rfl
    have l2 : (" */" : String).data = [' ', '*', '/'] := rfl
    have l3 : (" *" : String).data = [' ', '*'] := rfl
    rw [l1, l2, l3]
    simp [joinTokens]
  have hd29 : intn g 3 29 + 1 < 60 := by
    have : intn g 3 29 < 29 := Nat.mod_lt _ (by norm_num)
    omega
  have hside : ∀ t ∈ [(toString (intn g 0 60)).data, (toString (intn g 1 60)).data,
      (toString (intn g 2 24)).data, (toString (intn g 3 29 + 1)).data,
      '*' :: '/' :: (toString m).data, ['*']], ∀ c ∈ t, c ≠ ' ' := by
    intro t ht
    simp only [List.mem_cons, List.not_mem_nil, or_false] at ht
    rcases ht with rfl | rfl | rfl | rfl | rfl | rfl
    · exact noSpace_toString60 _ (intn_lt60 g 0)
    · exact noSpace_toString60 _ (intn_lt60 g 1)
    · exact noSpace_toString60 _ (by have := intn_lt24 g 2; omega)
    · exact noSpace_toString60 _ hd29
    · exact noSpace_star_token m hm60
    all_goals decide
  have hfs := specFields_of_joinTokens (addMonthSpec g true mon) _ hdata
    (by simp) hside
  simp only [List.map_cons, List.map_nil] at hfs
  exact claimOk_of_fields _ _ _ _ _ _ _ hfs
    (numericFieldOk_toString60 0 59 _ (intn_lt60 g 0) (Nat.zero_le _)
      (by have := intn_lt60 g 0; omega))
    (numericFieldOk_toString60 0 59 _ (intn_lt60 g 1) (Nat.zero_le _)
      (by have := intn_lt60 g 1; omega))
    (numericFieldOk_toString60 0 23 _ (by have := intn_lt24 g 2; omega)
      (Nat.zero_le _) (by have := intn_lt24 g 2; omega))
    (numericFieldOk_toString60 1 31 _ hd29 (by omega)
      (by have : intn g 3 29 < 29 := Nat.mod_lt _ (by norm_num); omega))

theorem weekFields_eq (g : Nat → Nat) (week : Int) :
    ∃ m : Nat, m < 60 ∧
      specFields (addWeekSpec g true week)
        = [toString (intn g 0 60), toString (intn g 1 60),
           toString (intn g 2 24), "0", "0",
           String.mk ('*' :: '/' :: (toString m).data)] := by
  obtain ⟨m, hm60, -, -, hms⟩ :=
    clamp_exists week 1 7 (by norm_num) (by norm_num) (by norm_num)
  have hdata : (addWeekSpec g true week).data
      = joinTokens [(toString (intn g 0 60)).data, (toString (intn g 1 60)).data,
          (toString (intn g 2 24)).data, ['0'], ['0'],
          '*' :: '/' :: (toString m).data] := by
    show (toString (intn g 0 60)).data ++ (" " : String).data
        ++ (toString (intn g 1 60)).data ++ (" " : String).data
        ++ (toString (intn g 2 24)).data ++ (" 0 0 */" : String).data
        ++ (toString (if week < 1 || week > 7 then (7 : Int) else week)).data = _
    rw [hms]
    have l1 : (" " : String).data = [' '] := rfl
    have l2 : (" 0 0 */" : String).data
        = [' ', '0', ' ', '0', ' ', '*', '/'] := rfl
    rw [l1, l2]
    simp [joinTokens]
  have hside : ∀ t ∈ [(toString (intn g 0 60)).data, (toString (intn g 1 60)).data,
      (toString (intn g 2 24)).data, ['0'], ['0'],
      '*' :: '/' :: (toString m).data], ∀ c ∈ t, c ≠ ' ' := by
    intro t ht
    simp only [List.mem_cons, List.not_mem_nil, or_false] at ht
    rcases ht with rfl | rfl | rfl | rfl | rfl | rfl
    · exact noSpace_toString60 _ (intn_lt60 g 0)
    · exact noSpace_toString60 _ (intn_lt60 g 1)
    · exact noSpace_toString60 _ (by have := intn_lt24 g 2; omega)
    · decide
    · decide
    · exact noSpace_star_token m hm60
  have hfs := specFields_of_joinTokens (addWeekSpec g true week) _ hdata
    (by simp) hside
  simp only [List.map_cons, List.map_nil] at hfs
  exact ⟨m, hm60, hfs⟩

/-! ### C3 -/

/-- Counterexample to C3 as stated: `AddWeekJob` with `random = true` and the
in-range argument 3 synthesizes a schedule expression whose day-of-month field
is the literal `0`, outside the legal range 1–31, so the claimed range property
of the sub-unit fields fails. -/
theorem week_random_dom_field_out_of_range :
    (specFields (addWeekSpec (fun _ => 0) true 3)).getD 3 "" = "0" ∧
    claimSubUnitFieldsOk (addWeekSpec (fun _ => 0) true 3) = false := by
  constructor
  · decide
  · decide

/-- C3 amended: for `AddSecondJob` (which ignores `random`) and for
`AddMinuteJob`, `AddHourJob`, `AddDayJob` and `AddMonthJob` with
`random = true`, every numeric sub-unit field of the synthesized expression
lies within its legal range (seconds/minutes 0–59, hours 0–23, day-of-month
1–31); for `AddWeekJob` the three randomized fields (seconds, minutes, hours)
lie within their legal ranges but the day-of-month and month fields are the
literal `0`, outside the day-of-month range 1–31.  The random values are drawn
once, when the expression string is synthesized at registration; firing a job
never alters the engine's stored registrations, so the expression is stable for
the life of the registration. -/
theorem random_spec_fields_ranges_and_stability :
    (∀ sec : Int, claimSubUnitFieldsOk (addSecondSpec sec) = true) ∧
    (∀ (g : Nat → Nat) (min : Int),
        claimSubUnitFieldsOk (addMinuteSpec g true min) = true) ∧
    (∀ (g : Nat → Nat) (hour : Int),
        claimSubUnitFieldsOk (addHourSpec g true hour) = true) ∧
    (∀ (g : Nat → Nat) (day : Int),
        claimSubUnitFieldsOk (addDaySpec g true day) = true) ∧
    (∀ (g : Nat → Nat) (mon : Int),
        claimSubUnitFieldsOk (addMonthSpec g true mon) = true) ∧
    (∀ (g : Nat → Nat) (week : Int),
        numericFieldOk 0 59 ((specFields (addWeekSpec g true week)).getD 0 "")
            = true ∧
          numericFieldOk 0 59 ((specFields (addWeekSpec g true week)).getD 1 "")
            = true ∧
          numericFieldOk 0 23 ((specFields (addWeekSpec g true week)).getD 2 "")
            = true ∧
          (specFields (addWeekSpec g true week)).getD 3 "" = "0" ∧
          (specFields (addWeekSpec g true week)).getD 4 "" = "0") ∧
    (∀ (st : CronState) (id : Int) (b : Behavior),
        (Call st id b).st.engine = st.engine) := by
  refine ⟨claimOk_second, claimOk_minute, claimOk_hour, claimOk_day,
    claimOk_month, ?_, Call_engine⟩
  intro g week
  obtain ⟨m, hm60, hfs⟩ := weekFields_eq g week
  rw [hfs]
  refine ⟨?_, ?_, ?_, rfl, rfl⟩
  · exact numericFieldOk_toString60 0 59 _ (intn_lt60 g 0) (Nat.zero_le _)
      (by have := intn_lt60 g 0; omega)
  · exact numericFieldOk_toString60 0 59 _ (intn_lt60 g 1) (Nat.zero_le _)
      (by have := intn_lt60 g 1; omega)
  · exact numericFieldOk_toString60 0 23 _ (by have := intn_lt24 g 2; omega)
      (Nat.zero_le _) (by have := intn_lt24 g 2; omega)

end CronModel
